import Mathlib

/-!
Shallow embedding of the collection pipeline in `beater/githubbeat.go`
(githubbeat). The remote GitHub client is modelled by its interface: each
fetch returns a value together with an optional error (`Option Err`), the
value being the zero value (nil pointer / nil slice, modelled as `none` /
`[]`) when the client failed. Go `int` counters are modelled as `Int`
(no overflow is relevant to the stated properties); the `float64` language
ratio is modelled as an exact rational `ℚ`. Go map iteration order
(`for lang, count := range langs`) is unspecified, so the language
byte-count map enters the model as the concrete association sequence the
iteration produced.
-/

namespace Githubbeat

/-- Errors returned by the GitHub client, abstract. -/
abbrev Err := String

/-- The fields of `github.Repository` read by `extractRepoData`.
`ownerLogin` models `repo.Owner.GetLogin()` (the empty string when the
owner is nil). -/
structure Repository where
  name : String
  ownerLogin : String
  stargazersCount : Int
  forksCount : Int
  watchersCount : Int
  openIssuesCount : Int
  subscribersCount : Int
  networkCount : Int
  size : Int
deriving DecidableEq, Repr

/-- The fields of `github.Contributor` read by `getContributions`. -/
structure Contributor where
  login : String
  contributions : Int
deriving DecidableEq, Repr

/-- The fields of `github.Branch` read by `getBranches`;
`commitSha` models `branch.Commit.GetSHA()`. -/
structure Branch where
  name : String
  commitSha : String
deriving DecidableEq, Repr

/-- The fields of `github.License` read by `extractLicenseData`. -/
structure License where
  key : String
  name : String
  spdxId : String
deriving DecidableEq, Repr

/-- The fields of `github.RepositoryLicense` read by `extractLicenseData`.
`license` models the possibly-nil inner `*github.License`. -/
structure RepositoryLicense where
  path : String
  sha : String
  license : Option License
deriving DecidableEq, Repr

/-- `github.RepositoryParticipation`: weekly commit counts over the
trailing year, for everyone (`All`) and for the owner (`Owner`). -/
structure RepositoryParticipation where
  all : List Int
  owner : List Int
deriving DecidableEq, Repr

/-- The fields of `github.ReleaseAsset` read by `collectDownloads`. -/
structure ReleaseAsset where
  downloadCount : Int
deriving DecidableEq, Repr

/-- The fields of `github.RepositoryRelease` read by `collectDownloads`. -/
structure RepositoryRelease where
  id : Int
  name : String
  assets : List ReleaseAsset
deriving DecidableEq, Repr

/-! ## Output shapes (`common.MapStr` values, given fixed field layouts) -/

/-- The map built by `createListMapStr`: `{count, list, error}`.
`error = none` models the nil error stored under the `"error"` key. -/
structure ListSection (α : Type) where
  count : Nat
  list : List α
  error : Option Err
deriving DecidableEq, Repr

/-- `createListMapStr(list, err)`: `count` is `len(list)`. -/
def createListMapStr {α : Type} (list : List α) (err : Option Err) : ListSection α :=
  { count := list.length, list := list, error := err }

/-- A map extended by `appendError`: the `"error"` key is added only when
the error is non-nil, which `Option Err` captures. -/
structure WithError (α : Type) where
  data : α
  error : Option Err
deriving DecidableEq, Repr

/-- `appendError(input, err)`. -/
def appendError {α : Type} (input : α) (err : Option Err) : WithError α :=
  { data := input, error := err }

/-- `sumIntArray`: the accumulating loop `for _, i := range array { sum += i }`. -/
def sumIntArray (array : List Int) : Int :=
  array.foldl (fun sum i => sum + i) 0

/-- One entry of the `contributor_list` section. -/
structure ContributorEntry where
  name : String
  contributions : Int
deriving DecidableEq, Repr

/-- `getContributions`: on a nil client error the contributor slice is
mapped to `{name, contributions}` entries; on an error the slice loop is
skipped and the list stays empty. -/
def getContributions (contributors : List Contributor) (err : Option Err) :
    ListSection ContributorEntry :=
  let users : List ContributorEntry :=
    match err with
    | none => contributors.map fun c => { name := c.login, contributions := c.contributions }
    | some _ => []
  createListMapStr users err

/-- One entry of the `branch_list` section. -/
structure BranchEntry where
  name : String
  sha : String
deriving DecidableEq, Repr

/-- `getBranches`: same error-guarded loop shape as `getContributions`. -/
def getBranches (branches : List Branch) (err : Option Err) : ListSection BranchEntry :=
  let branchList : List BranchEntry :=
    match err with
    | none => branches.map fun b => { name := b.name, sha := b.commitSha }
    | some _ => []
  createListMapStr branchList err

/-- One entry of the `languages` section; `ratio` models the `float64`
division `float64(count) / float64(sum)` as an exact rational. -/
structure LangEntry where
  lang : String
  bytes : Int
  ratio : ℚ
deriving DecidableEq, Repr

/-- `collectLanguageInfo`: `langs` is the sequence the Go range loop over
the language byte-count map produced (order unspecified by Go; on a client
error the map is nil and the sequence empty). The function does not test
the error before looping, matching the source. -/
def collectLanguageInfo (langs : List (String × Int)) (err : Option Err) :
    ListSection LangEntry :=
  let sum : Int := langs.foldl (fun s p => s + p.2) 0
  let out : List LangEntry := langs.map fun p =>
    { lang := p.1, bytes := p.2, ratio := (p.2 : ℚ) / (sum : ℚ) }
  createListMapStr out err

/-- The base-metadata map built by `extractRepoData`. -/
structure RepoData where
  repo : String
  owner : String
  stargazers : Int
  forks : Int
  watchers : Int
  open_issues : Int
  subscribers : Int
  network : Int
  size : Int
deriving DecidableEq, Repr

/-- `extractRepoData`. -/
def extractRepoData (repo : Repository) : RepoData :=
  { repo := repo.name
    owner := repo.ownerLogin
    stargazers := repo.stargazersCount
    forks := repo.forksCount
    watchers := repo.watchersCount
    open_issues := repo.openIssuesCount
    subscribers := repo.subscribersCount
    network := repo.networkCount
    size := repo.size }

/-- `collectForkInfo`: each fork goes through `extractRepoData` (one level,
no recursion into sub-resources); the error is not tested before the loop. -/
def collectForkInfo (forks : List Repository) (err : Option Err) : ListSection RepoData :=
  createListMapStr (forks.map extractRepoData) err

/-- The license map built by `extractLicenseData`: `path` and `sha` are
always present (nil-safe getters give `""` on a nil pointer); `key`,
`name`, `spdx_id` are added only when the inner license is non-nil. -/
structure LicenseData where
  path : String
  sha : String
  key : Option String
  name : Option String
  spdx_id : Option String
deriving DecidableEq, Repr

/-- `extractLicenseData` on the possibly-nil `*github.RepositoryLicense`. -/
def extractLicenseData (repositoryLicense : Option RepositoryLicense) : LicenseData :=
  match repositoryLicense with
  | none => { path := "", sha := "", key := none, name := none, spdx_id := none }
  | some rl =>
    match rl.license with
    | none => { path := rl.path, sha := rl.sha, key := none, name := none, spdx_id := none }
    | some l =>
      { path := rl.path, sha := rl.sha
        key := some l.key, name := some l.name, spdx_id := some l.spdxId }

/-- `collectLicenseInfo`. -/
def collectLicenseInfo (license : Option RepositoryLicense) (err : Option Err) :
    WithError LicenseData :=
  appendError (extractLicenseData license) err

/-- The participation map built by `extractParticipationData`. -/
structure ParticipationData where
  all : Int
  owner : Int
  community : Int
  period : String
deriving DecidableEq, Repr

/-- `extractParticipationData` on the possibly-nil pointer: both sums
default to 0 when it is nil. -/
def extractParticipationData (p : Option RepositoryParticipation) : ParticipationData :=
  let all : Int := match p with | some pt => sumIntArray pt.all | none => 0
  let owner : Int := match p with | some pt => sumIntArray pt.owner | none => 0
  { all := all, owner := owner, community := all - owner, period := "year" }

/-- `collectParticipation`. -/
def collectParticipation (p : Option RepositoryParticipation) (err : Option Err) :
    WithError ParticipationData :=
  appendError (extractParticipationData p) err

/-- One entry of the `downloads.releases` list. -/
structure ReleaseEntry where
  id : Int
  name : String
  downloads : Int
deriving DecidableEq, Repr

/-- The `downloads` section map. -/
structure DownloadsSection where
  total_downloads : Int
  releases : List ReleaseEntry
  error : Option Err
deriving DecidableEq, Repr

/-- Inner loop of `collectDownloads`: `releaseDownloads += asset.GetDownloadCount()`. -/
def releaseDownloads (assets : List ReleaseAsset) : Int :=
  assets.foldl (fun acc asset => acc + asset.downloadCount) 0

/-- Outer loop of `collectDownloads`, with its two accumulators
(`totalDownloads` and the `out` slice). -/
def downloadsLoop : List RepositoryRelease → Int → List ReleaseEntry → Int × List ReleaseEntry
  | [], totalDownloads, out => (totalDownloads, out)
  | release :: rest, totalDownloads, out =>
    let rd := releaseDownloads release.assets
    downloadsLoop rest (totalDownloads + rd)
      (out ++ [{ id := release.id, name := release.name, downloads := rd }])

/-- `collectDownloads`: the error is not tested before the loop; the
`"error"` key is always present (possibly nil). -/
def collectDownloads (releases : List RepositoryRelease) (err : Option Err) :
    DownloadsSection :=
  let res := downloadsLoop releases 0 []
  { total_downloads := res.1, releases := res.2, error := err }

/-! ## The Event assembled by `newFullRepoEvent` -/

/-- The results of the seven sub-resource fetches for one repository, each
a `(value, error)` pair as returned by the client (nil value on error). -/
structure SubFetches where
  license : Option RepositoryLicense
  licenseErr : Option Err
  forks : List Repository
  forksErr : Option Err
  contributors : List Contributor
  contributorsErr : Option Err
  branches : List Branch
  branchesErr : Option Err
  languages : List (String × Int)
  languagesErr : Option Err
  participation : Option RepositoryParticipation
  participationErr : Option Err
  releases : List RepositoryRelease
  releasesErr : Option Err
deriving DecidableEq, Repr

/-- The event map built by `newFullRepoEvent`, with its fixed field layout.
`timestamp` models `common.Time(time.Now())` as an abstract instant. -/
structure Event where
  timestamp : Int
  type : String
  data : RepoData
  license : WithError LicenseData
  fork_list : ListSection RepoData
  contributor_list : ListSection ContributorEntry
  branch_list : ListSection BranchEntry
  languages : ListSection LangEntry
  participation : WithError ParticipationData
  downloads : DownloadsSection
deriving DecidableEq, Repr

/-- `newFullRepoEvent`: base data plus the seven sub-resource sections. -/
def newFullRepoEvent (now : Int) (repo : Repository) (f : SubFetches) : Event :=
  { timestamp := now
    type := "githubbeat"
    data := extractRepoData repo
    license := collectLicenseInfo f.license f.licenseErr
    fork_list := collectForkInfo f.forks f.forksErr
    contributor_list := getContributions f.contributors f.contributorsErr
    branch_list := getBranches f.branches f.branchesErr
    languages := collectLanguageInfo f.languages f.languagesErr
    participation := collectParticipation f.participation f.participationErr
    downloads := collectDownloads f.releases f.releasesErr }

/-! ## Target parsing and the per-target / per-org collection loops -/

/-- Splitting on a one-character separator, the semantics of
`strings.Split(repo, "/")`: `""` yields `[""]`, separators at the ends
yield empty segments. -/
def splitOnChar (sep : Char) : List Char → List (List Char)
  | [] => [[]]
  | c :: rest =>
    let r := splitOnChar sep rest
    if c = sep then [] :: r
    else
      match r with
      | [] => [[c]]
      | h :: t => (c :: h) :: t

/-- An owner/name pair extracted from a repository-format target. -/
structure RepositoryIdentity where
  owner : List Char
  name : List Char
deriving DecidableEq, Repr

/-- The format check in `collectReposEvents`: split on `"/"` and require
`len(r) == 2` (the source checks only the segment count). -/
def parseRepoTarget (target : List Char) : Option RepositoryIdentity :=
  match splitOnChar '/' target with
  | [owner, name] => some { owner := owner, name := name }
  | _ => none

/-- Result of the per-target goroutine body in `collectReposEvents`:
a logged format error, a logged base-fetch error, or a published event. -/
inductive RepoOutcome where
  | formatError (target : List Char)
  | fetchError (e : Err)
  | published (ev : Event)
deriving DecidableEq, Repr

/-- Body of the goroutine `collectReposEvents` spawns for one target:
parse, fetch the base metadata (`Repositories.Get`, which returns a
repository exactly when its error is nil), then build and publish the
event. `baseFetch`/`subFetch` model the client responses this cycle. -/
def collectRepoEvent (now : Int) (baseFetch : RepositoryIdentity → Except Err Repository)
    (subFetch : RepositoryIdentity → SubFetches) (target : List Char) : RepoOutcome :=
  match parseRepoTarget target with
  | none => .formatError target
  | some id =>
    match baseFetch id with
    | .error e => .fetchError e
    | .ok repo => .published (newFullRepoEvent now repo (subFetch id))

/-- `collectReposEvents`: one independent goroutine per configured target;
the outcomes collected over the batch. -/
def collectReposEvents (now : Int) (baseFetch : RepositoryIdentity → Except Err Repository)
    (subFetch : RepositoryIdentity → SubFetches) (repos : List (List Char)) :
    List RepoOutcome :=
  repos.map (collectRepoEvent now baseFetch subFetch)

/-- The repositories an organization contributes: those of its listing
when the listing fetch succeeded, none when it failed (the goroutine
returns after logging). -/
def orgRepos : Except Err (List Repository) → List Repository
  | .ok repos => repos
  | .error _ => []

/-- The repositories for which `collectOrgsEvents` publishes an event,
over the configured organizations paired with their listing results. -/
def reposProcessed (orgs : List (String × Except Err (List Repository))) :
    List Repository :=
  orgs.flatMap fun o => orgRepos o.2

/-- `collectOrgsEvents`: for each organization whose listing succeeded,
one event per listed repository via `newFullRepoEvent`. -/
def collectOrgsEvents (now : Int) (subFetch : Repository → SubFetches)
    (orgs : List (String × Except Err (List Repository))) : List Event :=
  orgs.flatMap fun o => (orgRepos o.2).map fun repo => newFullRepoEvent now repo (subFetch repo)

/-! ## Helper lemmas -/

/-- An accumulating addition loop computes the initial value plus the sum. -/
theorem foldl_add_eq_sum {α : Type} (f : α → Int) (l : List α) (init : Int) :
    l.foldl (fun acc a => acc + f a) init = init + (l.map f).sum := by
  induction l generalizing init with
  | nil => simp
  | cons a t ih => simp [List.foldl_cons, ih, add_assoc]

theorem sumIntArray_eq_sum (l : List Int) : sumIntArray l = l.sum := by
  simpa using foldl_add_eq_sum id l 0

theorem releaseDownloads_eq_sum (assets : List ReleaseAsset) :
    releaseDownloads assets = (assets.map ReleaseAsset.downloadCount).sum := by
  simpa [releaseDownloads] using foldl_add_eq_sum ReleaseAsset.downloadCount assets 0

theorem langs_foldl_eq_sum (langs : List (String × Int)) :
    langs.foldl (fun s p => s + p.2) 0 = (langs.map Prod.snd).sum := by
  simpa using foldl_add_eq_sum Prod.snd langs 0

/-- The two accumulators of the `collectDownloads` loop, solved in closed
form. -/
theorem downloadsLoop_eq (rels : List RepositoryRelease) :
    ∀ (total : Int) (out : List ReleaseEntry),
    downloadsLoop rels total out =
      (total + (rels.map fun r => releaseDownloads r.assets).sum,
       out ++ rels.map fun r =>
        { id := r.id, name := r.name, downloads := releaseDownloads r.assets }) := by
  induction rels with
  | nil => intro total out; simp [downloadsLoop]
  | cons r t ih =>
    intro total out
    simp [downloadsLoop, ih, add_assoc]

/-! ## Concrete fixtures used by witness theorems -/

/-- A concrete repository, used to instantiate universally quantified
theorems. -/
def exRepo : Repository :=
  { name := "Hello-World", ownerLogin := "octocat", stargazersCount := 3
    forksCount := 2, watchersCount := 3, openIssuesCount := 1
    subscribersCount := 4, networkCount := 2, size := 108 }

/-- Sub-resource fetch results in which every one of the seven fetches
failed (nil values, non-nil errors). -/
def failingSubs : SubFetches :=
  { license := none, licenseErr := some "license down"
    forks := [], forksErr := some "forks down"
    contributors := [], contributorsErr := some "contributors down"
    branches := [], branchesErr := some "branches down"
    languages := [], languagesErr := some "languages down"
    participation := none, participationErr := some "participation down"
    releases := [], releasesErr := some "releases down" }

/-! ## Claims -/

/-- C4: the participation section always satisfies
`community = all - owner` in exact integer arithmetic, and a nil
participation result (the failed-fetch / no-data case) gives
`all = owner = community = 0`. -/
theorem participation_community_eq (p : Option RepositoryParticipation) (err : Option Err) :
    ((collectParticipation p err).data.community =
      (collectParticipation p err).data.all - (collectParticipation p err).data.owner) ∧
    (p = none →
      (collectParticipation p err).data.all = 0 ∧
      (collectParticipation p err).data.owner = 0 ∧
      (collectParticipation p err).data.community = 0) := by
  cases p <;> simp [collectParticipation, appendError, extractParticipationData]

theorem participation_community_eq_witness :
    (collectParticipation none (some "participation down")).data.all = 0 ∧
    (collectParticipation none (some "participation down")).data.owner = 0 ∧
    (collectParticipation none (some "participation down")).data.community = 0 :=
  (participation_community_eq none (some "participation down")).2 rfl

/-- C6: the downloads total is the sum over all releases of the sum of
that release's asset download counts, and each per-release entry carries
the release's id, name and its own download sum. -/
theorem downloads_total_eq_sum (releases : List RepositoryRelease) (err : Option Err) :
    (collectDownloads releases err).total_downloads =
      (releases.map fun r => (r.assets.map ReleaseAsset.downloadCount).sum).sum ∧
    (collectDownloads releases err).releases =
      releases.map fun r =>
        { id := r.id, name := r.name
          downloads := (r.assets.map ReleaseAsset.downloadCount).sum } := by
  simp [collectDownloads, downloadsLoop_eq, releaseDownloads_eq_sum]

/-- C10: in every emitted event, each of the four list-shaped sections has
its `count` field equal to the length of its `list` field, for every
combination of sub-fetch results (failures included). -/
theorem section_count_eq_length (now : Int) (repo : Repository) (f : SubFetches) :
    ((newFullRepoEvent now repo f).fork_list.count =
      (newFullRepoEvent now repo f).fork_list.list.length) ∧
    ((newFullRepoEvent now repo f).contributor_list.count =
      (newFullRepoEvent now repo f).contributor_list.list.length) ∧
    ((newFullRepoEvent now repo f).branch_list.count =
      (newFullRepoEvent now repo f).branch_list.list.length) ∧
    ((newFullRepoEvent now repo f).languages.count =
      (newFullRepoEvent now repo f).languages.list.length) :=
  ⟨rfl, rfl, rfl, rfl⟩

/-- C3: for a parsed repository identity, an event is published exactly
when the base metadata fetch succeeds; a base-fetch error yields a logged
per-repository error and no event, while any combination of sub-resource
results (including all seven failing) still yields a published event. -/
theorem event_iff_base_fetch (now : Int)
    (bf : RepositoryIdentity → Except Err Repository)
    (sf : RepositoryIdentity → SubFetches) (target : List Char)
    (id : RepositoryIdentity) (hparse : parseRepoTarget target = some id) :
    ((∃ ev, collectRepoEvent now bf sf target = .published ev) ↔
      ∃ repo, bf id = .ok repo) ∧
    (∀ e, bf id = .error e → collectRepoEvent now bf sf target = .fetchError e) ∧
    (∀ repo, bf id = .ok repo →
      collectRepoEvent now bf sf target =
        .published (newFullRepoEvent now repo (sf id))) := by
  unfold collectRepoEvent
  rw [hparse]
  cases h : bf id <;> simp [h]

theorem event_iff_base_fetch_witness :
    collectRepoEvent 5 (fun _ => Except.ok exRepo) (fun _ => failingSubs)
        "octocat/Hello-World".toList =
      .published (newFullRepoEvent 5 exRepo failingSubs) :=
  (event_iff_base_fetch 5 (fun _ => Except.ok exRepo) (fun _ => failingSubs)
    "octocat/Hello-World".toList
    { owner := "octocat".toList, name := "Hello-World".toList }
    (by decide)).2.2 exRepo rfl

/-- C1 counterexample: the target `"a/"` splits on `'/'` into two segments
of which the second is empty, yet the parser accepts it and produces an
identity with an empty name — the source checks only the segment count,
never segment non-emptiness, so no format error is recorded here. -/
theorem parseRepoTarget_accepts_empty_segment :
    splitOnChar '/' "a/".toList = [['a'], []] ∧
    parseRepoTarget "a/".toList = some { owner := ['a'], name := [] } := by
  decide

/-- C1 (amended): a target splitting on `'/'` into exactly two segments —
whether or not a segment is empty — yields an identity with those segments
as owner and name and proceeds to the fetch; any other segment count gets
a format error recorded for that target; and the batch yields one outcome
per target, so a malformed target aborts nothing else. -/
theorem repo_target_format (now : Int)
    (bf : RepositoryIdentity → Except Err Repository)
    (sf : RepositoryIdentity → SubFetches) (target : List Char)
    (repos : List (List Char)) :
    (∀ o n, splitOnChar '/' target = [o, n] →
      parseRepoTarget target = some { owner := o, name := n } ∧
      collectRepoEvent now bf sf target ≠ .formatError target) ∧
    ((splitOnChar '/' target).length ≠ 2 →
      parseRepoTarget target = none ∧
      collectRepoEvent now bf sf target = .formatError target) ∧
    (collectReposEvents now bf sf repos).length = repos.length ∧
    (∀ t ∈ repos, collectRepoEvent now bf sf t ∈ collectReposEvents now bf sf repos) := by
  refine ⟨?_, ?_, by simp [collectReposEvents], ?_⟩
  · intro o n h
    have hp : parseRepoTarget target = some { owner := o, name := n } := by
      unfold parseRepoTarget
      rw [h]
    refine ⟨hp, ?_⟩
    unfold collectRepoEvent
    rw [hp]
    cases h2 : bf { owner := o, name := n } <;> simp [h2]
  · intro hlen
    have hp : parseRepoTarget target = none := by
      unfold parseRepoTarget
      rcases hs : splitOnChar '/' target with _ | ⟨o, _ | ⟨n, _ | ⟨m, t⟩⟩⟩ <;>
        simp_all
    refine ⟨hp, ?_⟩
    unfold collectRepoEvent
    rw [hp]
  · intro t ht
    exact List.mem_map_of_mem _ ht

theorem repo_target_format_witness :
    parseRepoTarget "octocat/Hello-World".toList =
      some { owner := "octocat".toList, name := "Hello-World".toList } ∧
    parseRepoTarget "badformat".toList = none ∧
    collectRepoEvent 0 (fun _ => Except.error "down") (fun _ => failingSubs)
      "badformat".toList = .formatError "badformat".toList :=
  ⟨((repo_target_format 0 (fun _ => Except.error "down") (fun _ => failingSubs)
      "octocat/Hello-World".toList []).1 "octocat".toList "Hello-World".toList
      (by decide)).1,
   ((repo_target_format 0 (fun _ => Except.error "down") (fun _ => failingSubs)
      "badformat".toList []).2.1 (by decide)).1,
   ((repo_target_format 0 (fun _ => Except.error "down") (fun _ => failingSubs)
      "badformat".toList []).2.1 (by decide)).2⟩

/-- C5: when the license fetch fails and every other sub-fetch succeeds,
the event's license section carries the error while every other section is
populated from its fetched data with a nil error slot; the license failure
suppresses nothing. -/
theorem license_failure_isolated (now : Int) (repo : Repository) (e : Err)
    (lic : Option RepositoryLicense) (forks : List Repository)
    (contributors : List Contributor) (branches : List Branch)
    (langs : List (String × Int)) (part : Option RepositoryParticipation)
    (rels : List RepositoryRelease) :
    let ev := newFullRepoEvent now repo
      { license := lic, licenseErr := some e
        forks := forks, forksErr := none
        contributors := contributors, contributorsErr := none
        branches := branches, branchesErr := none
        languages := langs, languagesErr := none
        participation := part, participationErr := none
        releases := rels, releasesErr := none }
    ev.license.error = some e ∧
    ev.fork_list.error = none ∧
    ev.fork_list.list = forks.map extractRepoData ∧
    ev.contributor_list.error = none ∧
    ev.contributor_list.list =
      contributors.map (fun c => { name := c.login, contributions := c.contributions }) ∧
    ev.branch_list.error = none ∧
    ev.branch_list.list = branches.map (fun b => { name := b.name, sha := b.commitSha }) ∧
    ev.languages.error = none ∧
    ev.languages.list.map LangEntry.lang = langs.map Prod.fst ∧
    ev.languages.list.map LangEntry.bytes = langs.map Prod.snd ∧
    ev.participation.error = none ∧
    ev.participation.data = extractParticipationData part ∧
    ev.downloads.error = none ∧
    ev.downloads.releases = rels.map fun r =>
      { id := r.id, name := r.name
        downloads := (r.assets.map ReleaseAsset.downloadCount).sum } := by
  simp [newFullRepoEvent, collectLicenseInfo, collectForkInfo, getContributions,
    getBranches, collectLanguageInfo, collectParticipation, collectDownloads,
    createListMapStr, appendError, downloadsLoop_eq, releaseDownloads_eq_sum,
    Function.comp]

/-- C7: a repository is processed by the organization pass exactly when
some configured organization's listing succeeded and contains it; every
event published by the pass comes from the processed list; and an
organization whose listing failed contributes nothing and aborts nothing —
dropping it from the batch leaves the processed list unchanged. -/
theorem org_repo_resolution (orgs : List (String × Except Err (List Repository)))
    (repo : Repository) :
    (repo ∈ reposProcessed orgs ↔
      ∃ org repos, (org, Except.ok repos) ∈ orgs ∧ repo ∈ repos) ∧
    (∀ now sf, collectOrgsEvents now sf orgs =
      (reposProcessed orgs).map fun r => newFullRepoEvent now r (sf r)) ∧
    (∀ pre post org e, orgs = pre ++ (org, Except.error e) :: post →
      reposProcessed orgs = reposProcessed (pre ++ post)) := by
  refine ⟨?_, ?_, ?_⟩
  · constructor
    · intro h
      rcases List.mem_flatMap.mp h with ⟨o, ho, hrepo⟩
      rcases o with ⟨org, res⟩
      cases res with
      | error e => simp [orgRepos] at hrepo
      | ok repos => exact ⟨org, repos, ho, by simpa [orgRepos] using hrepo⟩
    · rintro ⟨org, repos, ho, hrepo⟩
      exact List.mem_flatMap.mpr ⟨(org, Except.ok repos), ho, by simpa [orgRepos] using hrepo⟩
  · intro now sf
    simp [collectOrgsEvents, reposProcessed, List.map_flatMap]
  · intro pre post org e h
    subst h
    simp [reposProcessed, List.flatMap_append, orgRepos]

theorem org_repo_resolution_witness :
    exRepo ∈ reposProcessed
      [("good-org", Except.ok [exRepo]), ("bad-org", Except.error "listing down")] ∧
    reposProcessed
      [("good-org", Except.ok [exRepo]), ("bad-org", Except.error "listing down")] =
      reposProcessed [("good-org", Except.ok [exRepo])] :=
  ⟨(org_repo_resolution
      [("good-org", Except.ok [exRepo]), ("bad-org", Except.error "listing down")]
      exRepo).1.mpr ⟨"good-org", [exRepo], by simp, by simp⟩,
   (org_repo_resolution
      [("good-org", Except.ok [exRepo]), ("bad-org", Except.error "listing down")]
      exRepo).2.2 [("good-org", Except.ok [exRepo])] [] "bad-org" "listing down" rfl⟩

/-- Casting an integer list sum to `ℚ` equals the sum of the casts. -/
theorem ratio_cast_sum (l : List (String × Int)) :
    (((l.map Prod.snd).sum : Int) : ℚ) = (l.map fun p => ((p.2 : Int) : ℚ)).sum := by
  induction l with
  | nil => simp
  | cons a t ih => simp [ih]

/-- C2 (amended): every emitted language entry carries the ratio
`bytes / total` computed against the map's total byte count in exact
arithmetic; when the total is nonzero the emitted ratios sum to exactly 1;
an empty map emits no ratio entries at all. (For a nonempty map whose
byte counts sum to zero the source still divides by the zero total —
`float64` NaN — so the sum-to-1 clause holds only for a nonzero total.) -/
theorem language_ratio_sound (langs : List (String × Int)) (err : Option Err) :
    ((collectLanguageInfo langs err).list =
      langs.map fun p =>
        { lang := p.1, bytes := p.2
          ratio := (p.2 : ℚ) / (((langs.map Prod.snd).sum : Int) : ℚ) }) ∧
    ((langs.map Prod.snd).sum ≠ 0 →
      ((collectLanguageInfo langs err).list.map LangEntry.ratio).sum = 1) ∧
    (langs = [] → (collectLanguageInfo langs err).list = []) := by
  have hlist : (collectLanguageInfo langs err).list =
      langs.map fun p =>
        { lang := p.1, bytes := p.2
          ratio := (p.2 : ℚ) / (((langs.map Prod.snd).sum : Int) : ℚ) } := by
    simp [collectLanguageInfo, createListMapStr, langs_foldl_eq_sum]
  refine ⟨hlist, ?_, ?_⟩
  · intro hne
    have hc : (((langs.map Prod.snd).sum : Int) : ℚ) ≠ 0 := Int.cast_ne_zero.mpr hne
    rw [hlist, List.map_map]
    have hfun : (LangEntry.ratio ∘ fun p : String × Int =>
        ({ lang := p.1, bytes := p.2
           ratio := (p.2 : ℚ) / (((langs.map Prod.snd).sum : Int) : ℚ) } : LangEntry)) =
        fun p : String × Int =>
          ((p.2 : Int) : ℚ) * ((((langs.map Prod.snd).sum : Int) : ℚ))⁻¹ := by
      funext p
      simp [Function.comp, div_eq_mul_inv]
    rw [hfun, List.sum_map_mul_right, ← ratio_cast_sum, mul_inv_cancel₀ hc]
  · intro h
    subst h
    rfl

theorem language_ratio_sound_witness :
    ((collectLanguageInfo [("Go", 70), ("HTML", 30)] none).list.map LangEntry.ratio).sum = 1 ∧
    (collectLanguageInfo ([] : List (String × Int)) (some "languages down")).list = [] :=
  ⟨(language_ratio_sound [("Go", 70), ("HTML", 30)] none).2.1 (by decide),
   (language_ratio_sound [] (some "languages down")).2.2 rfl⟩

/-- C2 counterexample: the nonempty language map with one language of zero
bytes still gets a ratio entry, computed by dividing by the zero total (in
the source's `float64` this is `0/0`, NaN); the emitted ratios do not sum
to 1 for this nonempty map, refuting the unrestricted sum-to-1 / no-NaN
clause. -/
theorem language_ratio_zero_total :
    ([("Empty", (0 : Int))] : List (String × Int)) ≠ [] ∧
    (collectLanguageInfo [("Empty", (0 : Int))] none).list.length = 1 ∧
    ((collectLanguageInfo [("Empty", (0 : Int))] none).list.map LangEntry.ratio).sum ≠ 1 := by
  refine ⟨by simp, rfl, ?_⟩
  simp [collectLanguageInfo, createListMapStr]

/-- Successful sub-resource fetch results whose language byte-count map
{A ↦ 1, B ↦ 2} was iterated in the order A then B. -/
def exFetchA : SubFetches :=
  { license := some
      { path := "LICENSE", sha := "9f0"
        license := some { key := "mit", name := "MIT License", spdxId := "MIT" } }
    licenseErr := none
    forks := [], forksErr := none
    contributors := [{ login := "octocat", contributions := 7 }]
    contributorsErr := none
    branches := [{ name := "main", commitSha := "4e2" }]
    branchesErr := none
    languages := [("A", 1), ("B", 2)], languagesErr := none
    participation := some { all := [3, 4], owner := [1] }
    participationErr := none
    releases := [], releasesErr := none }

/-- The same remote data, the language map iterated B then A. -/
def exFetchB : SubFetches := { exFetchA with languages := [("B", 2), ("A", 1)] }

/-- C8 counterexample: unchanged remote data — the language map
{A ↦ 1, B ↦ 2} iterated in the two orders Go's randomized map range may
produce on two runs — yields, even at the same timestamp, two events that
are not equal: the `languages` list order differs. -/
theorem event_language_order_sensitive :
    exFetchA.languages.Perm exFetchB.languages ∧
    (exFetchA.languages.map Prod.fst).Nodup ∧
    newFullRepoEvent 0 exRepo exFetchA ≠ newFullRepoEvent 0 exRepo exFetchB := by
  refine ⟨List.Perm.swap _ _ _, by decide, ?_⟩
  intro h
  have h2 := congrArg (fun ev => ev.languages.list.map LangEntry.lang) h
  simp [newFullRepoEvent, collectLanguageInfo, createListMapStr, exFetchA, exFetchB] at h2

/-- C8 (amended): two runs over the same repository with unchanged remote
data produce events equal in every field except the timestamp and except
the order of the `languages` list: when the two runs iterate the language
byte-count map in orders that are permutations of one another, every
other section is identical, and the two `languages` sections agree on
count and error and hold lists that are permutations of each other. -/
theorem event_idempotent_up_to_language_order (t1 t2 : Int) (repo : Repository)
    (f : SubFetches) (l1 l2 : List (String × Int)) (hperm : l1.Perm l2) :
    (newFullRepoEvent t1 repo { f with languages := l1 }).type =
      (newFullRepoEvent t2 repo { f with languages := l2 }).type ∧
    (newFullRepoEvent t1 repo { f with languages := l1 }).data =
      (newFullRepoEvent t2 repo { f with languages := l2 }).data ∧
    (newFullRepoEvent t1 repo { f with languages := l1 }).license =
      (newFullRepoEvent t2 repo { f with languages := l2 }).license ∧
    (newFullRepoEvent t1 repo { f with languages := l1 }).fork_list =
      (newFullRepoEvent t2 repo { f with languages := l2 }).fork_list ∧
    (newFullRepoEvent t1 repo { f with languages := l1 }).contributor_list =
      (newFullRepoEvent t2 repo { f with languages := l2 }).contributor_list ∧
    (newFullRepoEvent t1 repo { f with languages := l1 }).branch_list =
      (newFullRepoEvent t2 repo { f with languages := l2 }).branch_list ∧
    (newFullRepoEvent t1 repo { f with languages := l1 }).participation =
      (newFullRepoEvent t2 repo { f with languages := l2 }).participation ∧
    (newFullRepoEvent t1 repo { f with languages := l1 }).downloads =
      (newFullRepoEvent t2 repo { f with languages := l2 }).downloads ∧
    (newFullRepoEvent t1 repo { f with languages := l1 }).languages.error =
      (newFullRepoEvent t2 repo { f with languages := l2 }).languages.error ∧
    (newFullRepoEvent t1 repo { f with languages := l1 }).languages.count =
      (newFullRepoEvent t2 repo { f with languages := l2 }).languages.count ∧
    (newFullRepoEvent t1 repo { f with languages := l1 }).languages.list.Perm
      (newFullRepoEvent t2 repo { f with languages := l2 }).languages.list := by
  have hsum : (l1.map Prod.snd).sum = (l2.map Prod.snd).sum :=
    (hperm.map Prod.snd).sum_eq
  refine ⟨rfl, rfl, rfl, rfl, rfl, rfl, rfl, rfl, rfl, ?_, ?_⟩
  · simp [newFullRepoEvent, collectLanguageInfo, createListMapStr, hperm.length_eq]
  · simp [newFullRepoEvent, collectLanguageInfo, createListMapStr,
      langs_foldl_eq_sum, hsum]
    exact hperm.map _

theorem event_idempotent_up_to_language_order_witness :
    (newFullRepoEvent 0 exRepo { failingSubs with languages := [("A", 1), ("B", 2)] }).data =
      (newFullRepoEvent 1 exRepo { failingSubs with languages := [("B", 2), ("A", 1)] }).data ∧
    (newFullRepoEvent 0 exRepo
        { failingSubs with languages := [("A", 1), ("B", 2)] }).languages.list.Perm
      (newFullRepoEvent 1 exRepo
        { failingSubs with languages := [("B", 2), ("A", 1)] }).languages.list := by
  have h := event_idempotent_up_to_language_order 0 1 exRepo failingSubs
    [("A", 1), ("B", 2)] [("B", 2), ("A", 1)] (List.Perm.swap _ _ _)
  exact ⟨h.2.1, h.2.2.2.2.2.2.2.2.2.2⟩

end Githubbeat
